import Mathlib

/-!
Verification of the incident-scraper logic of `src/run.py` (ha-chescofire).

The development shallowly embeds the pure logic of the Python program:

* text lines are `String`s (the model is faithful for ASCII text, which is
  what the upstream page produces; Python `str.strip`, `str.lower`,
  substring `in`, `str.split` and the two regular expressions used by the
  scanner are modelled character-by-character on `List Char`);
* the network is a parameter: the comments-page fetcher is a function
  `String → Option String` (`none` = network error / non-success status),
  and the primary page is an `Option ScanEnv` (`none` = fetch failure);
* the `zoneinfo` localization used by the recency comparison is a parameter
  `toInstant : DateTime → Int` mapping a parsed wall-clock time to an
  instant on a linear timeline, and the cutoff `now - 8h` is the instant
  the code computes for it; Python compares timezone-aware datetimes by
  instant, which is exactly `toInstant dt < cutoff`;
* fallible parsing returns `Option`.
-/

set_option maxHeartbeats 1000000

/-- Python whitespace characters relevant to `str.strip` / `str.split`
(ASCII fragment). -/
def isPySpace (c : Char) : Bool :=
  c = ' ' || c = '\t' || c = '\n' || c = '\r' || c = '\x0b' || c = '\x0c'

/-- Characters of a list with leading and trailing whitespace removed;
model of Python `str.strip` on the character list. -/
def stripChars (l : List Char) : List Char :=
  ((l.dropWhile isPySpace).reverse.dropWhile isPySpace).reverse

/-- Python `s.strip()`. -/
def pyStrip (s : String) : String := String.mk (stripChars s.data)

/-- ASCII lowering of one character; model of Python `str.lower` on the
ASCII fragment. -/
def asciiLowerChar (c : Char) : Char :=
  if 'A' ≤ c && c ≤ 'Z' then Char.ofNat (c.toNat + 32) else c

/-- Python `s.lower()` (ASCII fragment). -/
def asciiLower (s : String) : String := String.mk (s.data.map asciiLowerChar)

/-- Whether the first list is an initial segment of the second. -/
def leadsChars : List Char → List Char → Bool
  | [], _ => true
  | _ :: _, [] => false
  | p :: ps, t :: ts => p == t && leadsChars ps ts

/-- Whether `pat` occurs as a contiguous sublist of the second list;
model of Python `pat in s` for strings. -/
def subChars (pat : List Char) : List Char → Bool
  | [] => leadsChars pat []
  | t :: ts => leadsChars pat (t :: ts) || subChars pat ts

/-- Python `pat in s`. -/
def hasSub (s pat : String) : Bool := subChars pat.data s.data

/-- Python `s.startswith(pat)`. -/
def pyStartsWith (s pat : String) : Bool := leadsChars pat.data s.data

/-- The empty string (the default used when a mapping or list has no
entry; Python code uses `""`). -/
def noLine : String := ""

/-- Model of Python regex `^[A-Z]\d+$` (the incident-ID shape `id_re` of
`run.py`): one ASCII uppercase letter followed by one or more ASCII
digits, matching the whole line. -/
def isIncidentId (s : String) : Bool :=
  match s.data with
  | [] => false
  | c :: rest => ('A' ≤ c && c ≤ 'Z') && !rest.isEmpty && rest.all Char.isDigit

/-- Model of the timestamp-shape regex
`^\d{2}-\d{2}-\d{4} \d{2}:\d{2}:\d{2}$` of `run.py`. -/
def tsShapeOk (s : String) : Bool :=
  match s.data with
  | [a1, a2, '-', b1, b2, '-', c1, c2, c3, c4, ' ', e1, e2, ':', f1, f2, ':', g1, g2] =>
      [a1, a2, b1, b2, c1, c2, c3, c4, e1, e2, f1, f2, g1, g2].all Char.isDigit
  | _ => false

/-- A parsed wall-clock date-time, as produced by
`datetime.strptime(ts, "%m-%d-%Y %H:%M:%S")`. -/
structure DateTime where
  year : Nat
  month : Nat
  day : Nat
  hour : Nat
  minute : Nat
  second : Nat
deriving DecidableEq, Repr

/-- Numeric value of two ASCII digit characters. -/
def twoDigits (a b : Char) : Nat := (a.toNat - 48) * 10 + (b.toNat - 48)

/-- Numeric value of four ASCII digit characters. -/
def fourDigits (a b c d : Char) : Nat :=
  ((twoDigits a b) * 10 + (c.toNat - 48)) * 10 + (d.toNat - 48)

/-- Gregorian leap-year test, as used by Python `datetime`. -/
def isLeap (y : Nat) : Bool := y % 4 = 0 && (y % 100 ≠ 0 || y % 400 = 0)

/-- Days in a month of the proleptic Gregorian calendar. -/
def daysInMonth (y m : Nat) : Nat :=
  if m = 2 then (if isLeap y then 29 else 28)
  else if m = 4 || m = 6 || m = 9 || m = 11 then 30
  else 31

/-- Model of `datetime.strptime(s, "%m-%d-%Y %H:%M:%S")` followed by the
validity checks of the `datetime` constructor, on strings of the shape the
scanner has already checked with `tsShapeOk` (the only strings `run.py`
ever passes to `strptime`): the call succeeds exactly when the fields are
a valid calendar date-time (`ValueError` is caught by the caller
otherwise). -/
def strptimeMDY (s : String) : Option DateTime :=
  match s.data with
  | [a1, a2, '-', b1, b2, '-', c1, c2, c3, c4, ' ', e1, e2, ':', f1, f2, ':', g1, g2] =>
      if [a1, a2, b1, b2, c1, c2, c3, c4, e1, e2, f1, f2, g1, g2].all Char.isDigit then
        let mm := twoDigits a1 a2
        let dd := twoDigits b1 b2
        let yy := fourDigits c1 c2 c3 c4
        let hh := twoDigits e1 e2
        let mi := twoDigits f1 f2
        let ss := twoDigits g1 g2
        if 1 ≤ mm && mm ≤ 12 && 1 ≤ dd && dd ≤ daysInMonth yy mm && 1 ≤ yy
            && hh ≤ 23 && mi ≤ 59 && ss ≤ 59 then
          some ⟨yy, mm, dd, hh, mi, ss⟩
        else none
      else none
  | _ => none

theorem strptime_demo : strptimeMDY "11-29-2025 00:31:04" =
    some ⟨2025, 11, 29, 0, 31, 4⟩ := by decide

theorem strptime_demo_bad : strptimeMDY "13-29-2025 00:31:04" = none := by decide

/-- The case-insensitive marker substring the unit extractor looks for
(`"scene" in line_lower` in `run.py`). -/
def sceneWord : String := "scene"

/-- Section-header line starting the fire section. -/
def hdrFire : String := "Fire Incidents"

/-- Section-header line starting the EMS section. -/
def hdrEMS : String := "EMS Incidents"

/-- Section-header line starting the traffic section. -/
def hdrTraffic : String := "Traffic Incidents"

/-- Table-header marker skipped by the scanner. -/
def tabIncidentNo : String := "Incident No."

/-- Table-header marker skipped by the scanner. -/
def tabLastUpdated : String := "Last Updated"

/-- Category string for the fire section. -/
def catFIRE : String := "FIRE"

/-- Category string for the EMS section. -/
def catEMS : String := "EMS"

/-- Category string for the traffic section. -/
def catTRAFFIC : String := "TRAFFIC"

/-- Category string used when no section header has been seen. -/
def catUNKNOWN : String := "UNKNOWN"

/-- Accumulator pass of the whitespace splitter: `cur` holds the reversed
characters of the token being read. -/
def pySplitAux : List Char → List Char → List (List Char)
  | cur, [] => if cur.isEmpty then [] else [cur.reverse]
  | cur, c :: rest =>
    if isPySpace c then
      if cur.isEmpty then pySplitAux [] rest
      else cur.reverse :: pySplitAux [] rest
    else pySplitAux (c :: cur) rest

/-- Model of Python `s.split()` (split on runs of whitespace, no empty
tokens), on character lists. -/
def pySplitTokens (l : List Char) : List (List Char) := pySplitAux [] l

theorem pySplitTokens_demo :
    pySplitTokens ("11-29-2025 00:40:31 ENG45".data) =
      ["11-29-2025".data, "00:40:31".data, "ENG45".data] := by decide

/-- One pass of the unit-extraction loop body of `get_units_on_scene`
(`run.py` lines 218-239), threading the accumulated `units` list. -/
def unitsStep (units : List String) (line : String) : List String :=
  let s := pyStrip line
  if !hasSub (asciiLower s) sceneWord then units
  else if !s.data.contains '>' then units
  else
    match (pySplitTokens (s.data.takeWhile (fun c => c ≠ '>'))).getLast? with
    | none => units
    | some t =>
      let unit := pyStrip (String.mk t)
      if unit ≠ noLine ∧ unit ∉ units then units ++ [unit] else units

/-- The unit-extraction loop of `get_units_on_scene` over the page lines. -/
def extractUnits (lines : List String) : List String := lines.foldl unitsStep []

/-- Model of Python `text.splitlines()` on the extracted page text
(ASCII fragment: newline-separated). -/
def pySplitlines (s : String) : List String := s.split (fun c => c = '\n')

/-- Model of `get_units_on_scene` (`run.py` lines 194-241).  The network
is the parameter `fetch : String → Option String`, returning the text
extracted from the fetched comments page, or `none` on a network error or
non-success HTTP status (`requests` exception / `raise_for_status`).  The
first component is the returned unit list; the second component records
the URLs actually requested, so that "no network call" is expressible. -/
def get_units_on_scene (fetch : String → Option String) (comments_url : String) :
    List String × List String :=
  if comments_url = noLine then ([], [])
  else
    match fetch comments_url with
    | none => ([], [comments_url])
    | some text =>
      let lines := (pySplitlines text).filter (fun l => pyStrip l ≠ noLine)
      (extractUnits lines, [comments_url])

/-- One incident record, with the fields the Python dict carries
(`run.py` lines 175-187).  The `timestamp` field holds the parsed
date-time (the dict stores its ISO rendering). -/
structure Incident where
  timestamp : DateTime
  id : String
  location : String
  municipality : String
  type : String
  category : String
  station : String
  description : String
  raw_timestamp : String
  comments_url : String
  units_on_scene : List String
deriving DecidableEq, Repr

/-- The environment of one scan of the primary page: its non-empty text
lines, the incident-number-to-comments-URL mapping built from the page's
anchors (defaulting to `""`, Python `incident_links.get(id, "")`), and
the comments-page fetcher. -/
structure ScanEnv where
  lines : List String
  links : String → String
  fetch : String → Option String

/-- Outcome of one iteration of the `while i < len(lines)` loop of
`get_incidents`: either the loop ends (`break` or loop condition false),
or it continues at cursor `i` with category `cat`, having appended
`emit` (if any) to the incident list. -/
inductive ScanStep where
  | halt : ScanStep
  | next (i : Nat) (cat : Option String) (emit : Option Incident) : ScanStep
deriving DecidableEq, Repr

/-- The incident dict built from the six lines of the block starting at
cursor `i` (`run.py` lines 142-187). -/
def blockIncident (E : ScanEnv) (i : Nat) (cat : Option String) (dt : DateTime) : Incident :=
  let incident_id := pyStrip (E.lines.getD i noLine)
  let incident_type := pyStrip (E.lines.getD (i+1) noLine)
  let location := pyStrip (E.lines.getD (i+2) noLine)
  let municipality := pyStrip (E.lines.getD (i+3) noLine)
  let ts_str := pyStrip (E.lines.getD (i+4) noLine)
  let station := pyStrip (E.lines.getD (i+5) noLine)
  let category := cat.getD catUNKNOWN
  let comments_url := E.links incident_id
  { timestamp := dt
    id := incident_id
    location := location
    municipality := municipality
    type := incident_type
    category := category
    station := station
    description := location ++ " | " ++ municipality ++ " | " ++ incident_type
      ++ " | " ++ category ++ " | Stn " ++ station
    raw_timestamp := ts_str
    comments_url := comments_url
    units_on_scene := (get_units_on_scene E.fetch comments_url).1 }

/-- One iteration of the scanning loop of `get_incidents` (`run.py`
lines 112-189), evaluated at cursor `i` with current category `cat`.
The recency test `dt < cutoff` of line 162 is abstracted into the
predicate `keep`; `get_incidents` instantiates it with the code's test
(see `getIncidentsFrom`). -/
def scanStep (E : ScanEnv) (keep : DateTime → Bool) (i : Nat) (cat : Option String) : ScanStep :=
  if i < E.lines.length then
    if E.lines.getD i noLine = hdrFire then ScanStep.next (i+1) (some catFIRE) none
    else if E.lines.getD i noLine = hdrEMS then ScanStep.next (i+1) (some catEMS) none
    else if E.lines.getD i noLine = hdrTraffic then ScanStep.next (i+1) (some catTRAFFIC) none
    else if pyStartsWith (E.lines.getD i noLine) tabIncidentNo
        || pyStartsWith (E.lines.getD i noLine) tabLastUpdated then
      ScanStep.next (i+1) cat none
    else if !isIncidentId (E.lines.getD i noLine) then ScanStep.next (i+1) cat none
    else if E.lines.length ≤ i + 5 then ScanStep.halt
    else if !tsShapeOk (pyStrip (E.lines.getD (i+4) noLine)) then ScanStep.next (i+6) cat none
    else
      match strptimeMDY (pyStrip (E.lines.getD (i+4) noLine)) with
      | none => ScanStep.next (i+6) cat none
      | some dt =>
        if !keep dt then ScanStep.next (i+6) cat none
        else ScanStep.next (i+6) cat (some (blockIncident E i cat dt))
  else ScanStep.halt

/-- Every continuing loop iteration strictly advances the cursor, and
only happens with the cursor inside the line list. -/
theorem scanStep_next_bounds (E : ScanEnv) (keep : DateTime → Bool) (i : Nat)
    (cat : Option String) (i' : Nat) (cat' : Option String) (e : Option Incident)
    (h : scanStep E keep i cat = ScanStep.next i' cat' e) : i < i' ∧ i < E.lines.length := by
  unfold scanStep at h
  by_cases h0 : i < E.lines.length
  · rw [if_pos h0] at h
    refine ⟨?_, h0⟩
    split at h
    · cases h; omega
    · split at h
      · cases h; omega
      · split at h
        · cases h; omega
        · split at h
          · cases h; omega
          · split at h
            · cases h; omega
            · split at h
              · cases h
              · split at h
                · cases h; omega
                · split at h
                  · cases h; omega
                  · split at h
                    · cases h; omega
                    · cases h; omega
  · rw [if_neg h0] at h
    cases h

/-- The scanning loop of `get_incidents` from cursor `i` with current
category `cat`: the list of incidents appended by the remaining
iterations.  Terminates because every `ScanStep.next` strictly advances
the cursor (`scanStep_next_bounds`). -/
def scanFrom (E : ScanEnv) (keep : DateTime → Bool) (i : Nat) (cat : Option String) :
    List Incident :=
  match h : scanStep E keep i cat with
  | ScanStep.halt => []
  | ScanStep.next i' cat' e => e.toList ++ scanFrom E keep i' cat'
termination_by E.lines.length - i
decreasing_by
  have hb := scanStep_next_bounds E keep i cat i' cat' e h
  omega

theorem scanFrom_halt (E : ScanEnv) (keep : DateTime → Bool) (i : Nat) (cat : Option String)
    (h : scanStep E keep i cat = ScanStep.halt) : scanFrom E keep i cat = [] := by
  rw [scanFrom]
  split
  · rfl
  · rename_i i' cat' e h'
    rw [h] at h'
    cases h'

theorem scanFrom_next (E : ScanEnv) (keep : DateTime → Bool) (i : Nat) (cat : Option String)
    (i' : Nat) (cat' : Option String) (e : Option Incident)
    (h : scanStep E keep i cat = ScanStep.next i' cat' e) :
    scanFrom E keep i cat = e.toList ++ scanFrom E keep i' cat' := by
  rw [scanFrom]
  split
  · rename_i h'
    rw [h] at h'
    cases h'
  · rename_i j cat'' e' h'
    rw [h] at h'
    cases h'
    rfl

/-- The scan of `get_incidents` as the code runs it: the recency test of
`run.py` line 162 (`if dt < cutoff: continue`, a Python timezone-aware
comparison, i.e. a comparison of instants) instantiates `keep`.
`toInstant` is the `zoneinfo` America/New_York localization mapping a
parsed wall-clock time to its instant, and `cutoff` is the instant of the
aware datetime `now - timedelta(hours=8)` computed on line 87. -/
def getIncidentsFrom (E : ScanEnv) (toInstant : DateTime → Int) (cutoff : Int)
    (i : Nat) (cat : Option String) : List Incident :=
  scanFrom E (fun dt => !decide (toInstant dt < cutoff)) i cat

/-- Modelled from the spec: the Section Scanner component (spec section
4.2 and the data-flow of section 2), i.e. the same scanning loop with the
downstream Incident Recency Filter factored out (`keep` always true).
The code fuses the two; `getIncidentsFrom` is proved equal to this scan
followed by the recency filter. -/
def sectionScanFrom (E : ScanEnv) (i : Nat) (cat : Option String) : List Incident :=
  scanFrom E (fun _ => true) i cat

/-- Model of `get_incidents` (`run.py` lines 54-191): `page` is `none`
when the primary-page fetch raises or returns a non-success status (the
`except` branch returns `[]`), and otherwise carries the tokenized page
lines, the anchor-derived comments-link mapping and the comments fetcher.
The scan starts at cursor 0 with no current category. -/
def get_incidents (toInstant : DateTime → Int) (cutoff : Int) (page : Option ScanEnv) :
    List Incident :=
  match page with
  | none => []
  | some E => getIncidentsFrom E toInstant cutoff 0 none

/-- Model of `filter_incidents` (`run.py` lines 244-252); `filters` is
the configured `TARGET_FILTERS` set. -/
def filter_incidents (filters : List String) (incidents : List Incident) : List Incident :=
  if filters.isEmpty then incidents
  else incidents.filter (fun inc => filters.any (fun key => hasSub inc.municipality key))

/-- The JSON payload assembled by `main_loop` (`run.py` lines 275-280). -/
structure Payload where
  last_update : String
  total_incidents : Nat
  filtered_incidents : Nat
  incidents : List Incident
deriving DecidableEq, Repr

/-- The payload `main_loop` builds from the scraped incident list. -/
def mkPayload (nowStr : String) (filters : List String) (allIncidents : List Incident) :
    Payload :=
  let my := filter_incidents filters allIncidents
  { last_update := nowStr
    total_incidents := allIncidents.length
    filtered_incidents := my.length
    incidents := my }

/-- What one iteration of `main_loop` (`run.py` lines 263-292) publishes
to the MQTT topic: `none` if the MQTT connect raised (`OSError` branch:
sleep and retry, nothing published), otherwise the payload — note the
code publishes unconditionally once connected, whether or not
`get_incidents` returned anything. -/
def cyclePublish (mqttOk : Bool) (nowStr : String) (toInstant : DateTime → Int)
    (cutoff : Int) (page : Option ScanEnv) (filters : List String) : Option Payload :=
  if mqttOk then
    some (mkPayload nowStr filters (get_incidents toInstant cutoff page))
  else none

theorem digit_ne_of_not_digit (c : Char) (hc : c.isDigit = true) (d : Char)
    (hd : d.isDigit = false) : (d == c) = false := by
  cases hbe : d == c
  · rfl
  · exfalso
    rw [beq_iff_eq] at hbe
    subst hbe
    rw [hc] at hd
    cases hd

/-- An incident-ID-shaped line has at least two characters and its second
character is a digit. -/
theorem isIncidentId_shape (s : String) (h : isIncidentId s = true) :
    ∃ c c2 rest2, s.data = c :: c2 :: rest2 ∧ c2.isDigit = true := by
  rcases hs : s.data with _ | ⟨c, rest⟩
  · exfalso
    unfold isIncidentId at h
    rw [hs] at h
    cases h
  · rcases rest with _ | ⟨c2, rest2⟩
    · exfalso
      unfold isIncidentId at h
      rw [hs] at h
      simp at h
    · refine ⟨c, c2, rest2, rfl, ?_⟩
      unfold isIncidentId at h
      rw [hs] at h
      simp [List.all_cons] at h
      exact h.2.1

/-- An incident-ID-shaped line is neither a section header nor a
table-header line: the scanner's earlier branches do not fire on it. -/
theorem isIncidentId_props (s : String) (h : isIncidentId s = true) :
    ¬(s = hdrFire) ∧ ¬(s = hdrEMS) ∧ ¬(s = hdrTraffic) ∧
    pyStartsWith s tabIncidentNo = false ∧ pyStartsWith s tabLastUpdated = false := by
  obtain ⟨c, c2, rest2, hs, hc2⟩ := isIncidentId_shape s h
  refine ⟨?_, ?_, ?_, ?_, ?_⟩
  · intro he; rw [he] at h; exact absurd h (by decide)
  · intro he; rw [he] at h; exact absurd h (by decide)
  · intro he; rw [he] at h; exact absurd h (by decide)
  · have hdata : tabIncidentNo.data =
        'I' :: 'n' :: 'c' :: 'i' :: 'd' :: 'e' :: 'n' :: 't' :: ' ' :: 'N' :: 'o' :: '.' :: [] :=
      rfl
    rw [pyStartsWith, hdata, hs]
    simp only [leadsChars]
    have hn : ('n' == c2) = false := digit_ne_of_not_digit c2 hc2 'n' (by decide)
    simp [hn]
  · have hdata : tabLastUpdated.data =
        'L' :: 'a' :: 's' :: 't' :: ' ' :: 'U' :: 'p' :: 'd' :: 'a' :: 't' :: 'e' :: 'd' :: [] :=
      rfl
    rw [pyStartsWith, hdata, hs]
    simp only [leadsChars]
    have ha : ('a' == c2) = false := digit_ne_of_not_digit c2 hc2 'a' (by decide)
    simp [ha]

/-- At an incident-ID-shaped line the scanner reduces to the 6-line block
logic of `run.py` lines 138-189. -/
theorem scanStep_at_id (E : ScanEnv) (keep : DateTime → Bool) (i : Nat) (cat : Option String)
    (hid : isIncidentId (E.lines.getD i noLine) = true)
    (hi : i < E.lines.length) :
    scanStep E keep i cat =
      (if E.lines.length ≤ i + 5 then ScanStep.halt
       else if !tsShapeOk (pyStrip (E.lines.getD (i+4) noLine)) then
         ScanStep.next (i+6) cat none
       else
         match strptimeMDY (pyStrip (E.lines.getD (i+4) noLine)) with
         | none => ScanStep.next (i+6) cat none
         | some dt =>
           if !keep dt then ScanStep.next (i+6) cat none
           else ScanStep.next (i+6) cat (some (blockIncident E i cat dt))) := by
  obtain ⟨h1, h2, h3, h4, h5⟩ := isIncidentId_props _ hid
  unfold scanStep
  rw [if_pos hi, if_neg h1, if_neg h2, if_neg h3]
  have hb : (pyStartsWith (E.lines.getD i noLine) tabIncidentNo
      || pyStartsWith (E.lines.getD i noLine) tabLastUpdated) = false := by
    rw [h4, h5]
    rfl
  rw [hb]
  have hid' : (!isIncidentId (E.lines.getD i noLine)) = false := by rw [hid]; rfl
  rw [hid']
  simp

/-- An ID-shaped line with fewer than 6 lines remaining stops the scan
(`run.py` line 139-140). -/
theorem scanFrom_id_short (E : ScanEnv) (keep : DateTime → Bool) (i : Nat) (cat : Option String)
    (hid : isIncidentId (E.lines.getD i noLine) = true)
    (hi : i < E.lines.length) (hshort : E.lines.length ≤ i + 5) :
    scanFrom E keep i cat = [] := by
  apply scanFrom_halt
  rw [scanStep_at_id E keep i cat hid hi, if_pos hshort]

/-- A block whose timestamp line fails the shape check or the parse is
consumed whole with no emission (`run.py` lines 149-160). -/
theorem scanFrom_id_invalid (E : ScanEnv) (keep : DateTime → Bool) (i : Nat) (cat : Option String)
    (hid : isIncidentId (E.lines.getD i noLine) = true)
    (hlen : i + 5 < E.lines.length)
    (hbad : tsShapeOk (pyStrip (E.lines.getD (i+4) noLine)) = false
      ∨ strptimeMDY (pyStrip (E.lines.getD (i+4) noLine)) = none) :
    scanFrom E keep i cat = scanFrom E keep (i+6) cat := by
  have hi : i < E.lines.length := by omega
  have hstep := scanStep_at_id E keep i cat hid hi
  rw [if_neg (by omega)] at hstep
  rcases hbad with hb | hb
  · rw [hb] at hstep
    simp only [Bool.not_false, if_pos] at hstep
    rw [scanFrom_next E keep i cat (i+6) cat none hstep]
    rfl
  · by_cases hsh : tsShapeOk (pyStrip (E.lines.getD (i+4) noLine))
    · rw [hsh] at hstep
      simp only [Bool.not_true, Bool.false_eq_true, if_false] at hstep
      rw [hb] at hstep
      rw [scanFrom_next E keep i cat (i+6) cat none hstep]
      rfl
    · rw [Bool.not_eq_true] at hsh
      rw [hsh] at hstep
      simp only [Bool.not_false, if_pos] at hstep
      rw [scanFrom_next E keep i cat (i+6) cat none hstep]
      rfl

/-- A valid block whose parsed timestamp fails the `keep` test is
consumed whole with no emission (`run.py` lines 162-163). -/
theorem scanFrom_id_dropped (E : ScanEnv) (keep : DateTime → Bool) (i : Nat)
    (cat : Option String) (dt : DateTime)
    (hid : isIncidentId (E.lines.getD i noLine) = true)
    (hlen : i + 5 < E.lines.length)
    (hshape : tsShapeOk (pyStrip (E.lines.getD (i+4) noLine)) = true)
    (hparse : strptimeMDY (pyStrip (E.lines.getD (i+4) noLine)) = some dt)
    (hkeep : keep dt = false) :
    scanFrom E keep i cat = scanFrom E keep (i+6) cat := by
  have hi : i < E.lines.length := by omega
  have hstep := scanStep_at_id E keep i cat hid hi
  rw [if_neg (by omega), hshape] at hstep
  simp only [Bool.not_true, Bool.false_eq_true, if_false] at hstep
  simp only [hparse, hkeep, Bool.not_false, if_pos] at hstep
  rw [scanFrom_next E keep i cat (i+6) cat none hstep]
  rfl

/-- A valid block whose parsed timestamp passes the `keep` test emits
exactly the block's incident and advances the cursor by 6 (`run.py`
lines 142-189). -/
theorem scanFrom_id_emit (E : ScanEnv) (keep : DateTime → Bool) (i : Nat)
    (cat : Option String) (dt : DateTime)
    (hid : isIncidentId (E.lines.getD i noLine) = true)
    (hlen : i + 5 < E.lines.length)
    (hshape : tsShapeOk (pyStrip (E.lines.getD (i+4) noLine)) = true)
    (hparse : strptimeMDY (pyStrip (E.lines.getD (i+4) noLine)) = some dt)
    (hkeep : keep dt = true) :
    scanFrom E keep i cat = blockIncident E i cat dt :: scanFrom E keep (i+6) cat := by
  have hi : i < E.lines.length := by omega
  have hstep := scanStep_at_id E keep i cat hid hi
  rw [if_neg (by omega), hshape] at hstep
  simp only [Bool.not_true, Bool.false_eq_true, if_false] at hstep
  simp only [hparse, hkeep, Bool.not_true, Bool.false_eq_true, if_false] at hstep
  rw [scanFrom_next E keep i cat (i+6) cat (some (blockIncident E i cat dt)) hstep]
  rfl

/-- Whether a line is one of the three section headers. -/
def isHeader (s : String) : Bool := s == hdrFire || s == hdrEMS || s == hdrTraffic

theorem scanStep_out (E : ScanEnv) (keep : DateTime → Bool) (i : Nat) (cat : Option String)
    (h0 : ¬ i < E.lines.length) : scanStep E keep i cat = ScanStep.halt := by
  unfold scanStep
  rw [if_neg h0]

theorem scanStep_hdr_fire (E : ScanEnv) (keep : DateTime → Bool) (i : Nat) (cat : Option String)
    (h0 : i < E.lines.length) (h1 : E.lines.getD i noLine = hdrFire) :
    scanStep E keep i cat = ScanStep.next (i+1) (some catFIRE) none := by
  unfold scanStep
  rw [if_pos h0, if_pos h1]

theorem scanStep_hdr_ems (E : ScanEnv) (keep : DateTime → Bool) (i : Nat) (cat : Option String)
    (h0 : i < E.lines.length) (h2 : E.lines.getD i noLine = hdrEMS) :
    scanStep E keep i cat = ScanStep.next (i+1) (some catEMS) none := by
  have h1 : ¬ E.lines.getD i noLine = hdrFire := by rw [h2]; decide
  unfold scanStep
  rw [if_pos h0, if_neg h1, if_pos h2]

theorem scanStep_hdr_traffic (E : ScanEnv) (keep : DateTime → Bool) (i : Nat) (cat : Option String)
    (h0 : i < E.lines.length) (h3 : E.lines.getD i noLine = hdrTraffic) :
    scanStep E keep i cat = ScanStep.next (i+1) (some catTRAFFIC) none := by
  have h1 : ¬ E.lines.getD i noLine = hdrFire := by rw [h3]; decide
  have h2 : ¬ E.lines.getD i noLine = hdrEMS := by rw [h3]; decide
  unfold scanStep
  rw [if_pos h0, if_neg h1, if_neg h2, if_pos h3]

theorem scanStep_table (E : ScanEnv) (keep : DateTime → Bool) (i : Nat) (cat : Option String)
    (h0 : i < E.lines.length)
    (h1 : ¬ E.lines.getD i noLine = hdrFire) (h2 : ¬ E.lines.getD i noLine = hdrEMS)
    (h3 : ¬ E.lines.getD i noLine = hdrTraffic)
    (h4 : (pyStartsWith (E.lines.getD i noLine) tabIncidentNo
        || pyStartsWith (E.lines.getD i noLine) tabLastUpdated) = true) :
    scanStep E keep i cat = ScanStep.next (i+1) cat none := by
  unfold scanStep
  rw [if_pos h0, if_neg h1, if_neg h2, if_neg h3, if_pos h4]

theorem scanStep_noise (E : ScanEnv) (keep : DateTime → Bool) (i : Nat) (cat : Option String)
    (h0 : i < E.lines.length)
    (h1 : ¬ E.lines.getD i noLine = hdrFire) (h2 : ¬ E.lines.getD i noLine = hdrEMS)
    (h3 : ¬ E.lines.getD i noLine = hdrTraffic)
    (h4 : ¬ (pyStartsWith (E.lines.getD i noLine) tabIncidentNo
        || pyStartsWith (E.lines.getD i noLine) tabLastUpdated) = true)
    (h5 : isIncidentId (E.lines.getD i noLine) = false) :
    scanStep E keep i cat = ScanStep.next (i+1) cat none := by
  unfold scanStep
  rw [if_pos h0, if_neg h1, if_neg h2, if_neg h3, if_neg h4, if_pos (by rw [h5]; decide)]

/-- Exhaustive description of one loop iteration: the loop halts, sets a
category at a header line, skips one line, consumes an invalid or
filtered-out block, or consumes a block and emits its incident. -/
theorem scanStep_cases_all (E : ScanEnv) (keep : DateTime → Bool) (i : Nat)
    (cat : Option String) :
    scanStep E keep i cat = ScanStep.halt
  ∨ (E.lines.getD i noLine = hdrFire
      ∧ scanStep E keep i cat = ScanStep.next (i+1) (some catFIRE) none)
  ∨ (E.lines.getD i noLine = hdrEMS
      ∧ scanStep E keep i cat = ScanStep.next (i+1) (some catEMS) none)
  ∨ (E.lines.getD i noLine = hdrTraffic
      ∧ scanStep E keep i cat = ScanStep.next (i+1) (some catTRAFFIC) none)
  ∨ scanStep E keep i cat = ScanStep.next (i+1) cat none
  ∨ scanStep E keep i cat = ScanStep.next (i+6) cat none
  ∨ ∃ dt, scanStep E keep i cat = ScanStep.next (i+6) cat (some (blockIncident E i cat dt)) := by
  by_cases h0 : i < E.lines.length
  case neg => exact Or.inl (scanStep_out E keep i cat h0)
  by_cases h1 : E.lines.getD i noLine = hdrFire
  · exact Or.inr (Or.inl ⟨h1, scanStep_hdr_fire E keep i cat h0 h1⟩)
  by_cases h2 : E.lines.getD i noLine = hdrEMS
  · exact Or.inr (Or.inr (Or.inl ⟨h2, scanStep_hdr_ems E keep i cat h0 h2⟩))
  by_cases h3 : E.lines.getD i noLine = hdrTraffic
  · exact Or.inr (Or.inr (Or.inr (Or.inl ⟨h3, scanStep_hdr_traffic E keep i cat h0 h3⟩)))
  by_cases h4 : (pyStartsWith (E.lines.getD i noLine) tabIncidentNo
      || pyStartsWith (E.lines.getD i noLine) tabLastUpdated) = true
  · exact Or.inr (Or.inr (Or.inr (Or.inr (Or.inl
      (scanStep_table E keep i cat h0 h1 h2 h3 h4)))))
  by_cases h5 : isIncidentId (E.lines.getD i noLine) = true
  case neg =>
    have h5f : isIncidentId (E.lines.getD i noLine) = false := by
      cases hb : isIncidentId (E.lines.getD i noLine)
      · rfl
      · exact absurd hb h5
    exact Or.inr (Or.inr (Or.inr (Or.inr (Or.inl
      (scanStep_noise E keep i cat h0 h1 h2 h3 h4 h5f)))))
  have hstep := scanStep_at_id E keep i cat h5 h0
  by_cases h6 : E.lines.length ≤ i + 5
  · rw [if_pos h6] at hstep
    exact Or.inl hstep
  rw [if_neg h6] at hstep
  by_cases h7 : tsShapeOk (pyStrip (E.lines.getD (i+4) noLine)) = true
  case neg =>
    have h7f : tsShapeOk (pyStrip (E.lines.getD (i+4) noLine)) = false := by
      cases hb : tsShapeOk (pyStrip (E.lines.getD (i+4) noLine))
      · rfl
      · exact absurd hb h7
    rw [h7f] at hstep
    simp only [Bool.not_false, if_pos] at hstep
    exact Or.inr (Or.inr (Or.inr (Or.inr (Or.inr (Or.inl hstep)))))
  rw [h7] at hstep
  simp only [Bool.not_true, Bool.false_eq_true, if_false] at hstep
  cases h8 : strptimeMDY (pyStrip (E.lines.getD (i+4) noLine)) with
  | none =>
    rw [h8] at hstep
    exact Or.inr (Or.inr (Or.inr (Or.inr (Or.inr (Or.inl hstep)))))
  | some dt =>
    rw [h8] at hstep
    cases h9 : keep dt with
    | false =>
      simp only [h9, Bool.not_false, if_pos] at hstep
      exact Or.inr (Or.inr (Or.inr (Or.inr (Or.inr (Or.inl hstep)))))
    | true =>
      simp only [h9, Bool.not_true, Bool.false_eq_true, if_false] at hstep
      exact Or.inr (Or.inr (Or.inr (Or.inr (Or.inr (Or.inr ⟨dt, hstep⟩)))))

/-- The scan with recency predicate `keep` takes exactly the branches of
the unfiltered scan, merely dropping the emitted incident when `keep`
rejects its timestamp: the code's fused loop is the Section Scanner
followed by the recency filter. -/
theorem scanStep_keep (E : ScanEnv) (keep : DateTime → Bool) (i : Nat) (cat : Option String) :
    scanStep E keep i cat =
      match scanStep E (fun _ => true) i cat with
      | ScanStep.next i' cat' (some inc) =>
          ScanStep.next i' cat' (if keep inc.timestamp then some inc else none)
      | s => s := by
  by_cases h0 : i < E.lines.length
  case neg =>
    rw [scanStep_out E keep i cat h0, scanStep_out E (fun _ => true) i cat h0]
  by_cases h1 : E.lines.getD i noLine = hdrFire
  · rw [scanStep_hdr_fire E keep i cat h0 h1, scanStep_hdr_fire E (fun _ => true) i cat h0 h1]
  by_cases h2 : E.lines.getD i noLine = hdrEMS
  · rw [scanStep_hdr_ems E keep i cat h0 h2, scanStep_hdr_ems E (fun _ => true) i cat h0 h2]
  by_cases h3 : E.lines.getD i noLine = hdrTraffic
  · rw [scanStep_hdr_traffic E keep i cat h0 h3,
      scanStep_hdr_traffic E (fun _ => true) i cat h0 h3]
  by_cases h4 : (pyStartsWith (E.lines.getD i noLine) tabIncidentNo
      || pyStartsWith (E.lines.getD i noLine) tabLastUpdated) = true
  · rw [scanStep_table E keep i cat h0 h1 h2 h3 h4,
      scanStep_table E (fun _ => true) i cat h0 h1 h2 h3 h4]
  by_cases h5 : isIncidentId (E.lines.getD i noLine) = true
  case neg =>
    have h5f : isIncidentId (E.lines.getD i noLine) = false := by
      cases hb : isIncidentId (E.lines.getD i noLine)
      · rfl
      · exact absurd hb h5
    rw [scanStep_noise E keep i cat h0 h1 h2 h3 h4 h5f,
      scanStep_noise E (fun _ => true) i cat h0 h1 h2 h3 h4 h5f]
  have hstepK := scanStep_at_id E keep i cat h5 h0
  have hstep1 := scanStep_at_id E (fun _ => true) i cat h5 h0
  by_cases h6 : E.lines.length ≤ i + 5
  · rw [if_pos h6] at hstepK hstep1
    rw [hstepK, hstep1]
  rw [if_neg h6] at hstepK hstep1
  by_cases h7 : tsShapeOk (pyStrip (E.lines.getD (i+4) noLine)) = true
  case neg =>
    have h7f : tsShapeOk (pyStrip (E.lines.getD (i+4) noLine)) = false := by
      cases hb : tsShapeOk (pyStrip (E.lines.getD (i+4) noLine))
      · rfl
      · exact absurd hb h7
    rw [h7f] at hstepK hstep1
    simp only [Bool.not_false, if_pos] at hstepK hstep1
    rw [hstepK, hstep1]
  rw [h7] at hstepK hstep1
  simp only [Bool.not_true, Bool.false_eq_true, if_false] at hstepK hstep1
  cases h8 : strptimeMDY (pyStrip (E.lines.getD (i+4) noLine)) with
  | none =>
    rw [h8] at hstepK hstep1
    rw [hstepK, hstep1]
  | some dt =>
    rw [h8] at hstepK hstep1
    simp only [Bool.not_true, Bool.false_eq_true, if_false] at hstep1
    rw [hstepK, hstep1]
    cases h9 : keep dt with
    | false => simp [h9, blockIncident]
    | true => simp [h9, blockIncident]

/-- The fused scan equals the unfiltered scan followed by the recency
filter on the parsed timestamp. -/
theorem scanFrom_eq_filter (E : ScanEnv) (keep : DateTime → Bool) :
    ∀ (k i : Nat) (cat : Option String), E.lines.length - i = k →
      scanFrom E keep i cat =
        (scanFrom E (fun _ => true) i cat).filter (fun inc => keep inc.timestamp) := by
  intro k
  induction k using Nat.strong_induction_on with
  | _ k ih =>
    intro i cat hk
    cases hs : scanStep E (fun _ => true) i cat with
    | halt =>
      have hkstep : scanStep E keep i cat = ScanStep.halt := by
        rw [scanStep_keep, hs]
      rw [scanFrom_halt _ _ _ _ hs, scanFrom_halt _ _ _ _ hkstep]
      rfl
    | next i' cat' e =>
      have hb := scanStep_next_bounds E (fun _ => true) i cat i' cat' e hs
      cases e with
      | none =>
        have hkstep : scanStep E keep i cat = ScanStep.next i' cat' none := by
          rw [scanStep_keep, hs]
        rw [scanFrom_next _ _ _ _ _ _ _ hs, scanFrom_next _ _ _ _ _ _ _ hkstep]
        simp only [Option.toList, List.nil_append]
        exact ih (E.lines.length - i') (by omega) i' cat' rfl
      | some inc =>
        have hkstep : scanStep E keep i cat =
            ScanStep.next i' cat' (if keep inc.timestamp then some inc else none) := by
          rw [scanStep_keep, hs]
        rw [scanFrom_next _ _ _ _ _ _ _ hs, scanFrom_next _ _ _ _ _ _ _ hkstep]
        have htail := ih (E.lines.length - i') (by omega) i' cat' rfl
        cases hkp : keep inc.timestamp with
        | true => simp [htail, hkp]
        | false => simp [htail, hkp]

/-- The code's scan (`getIncidentsFrom`) is the Section Scanner
(`sectionScanFrom`) followed by the Incident Recency Filter. -/
theorem getIncidentsFrom_eq_filter (E : ScanEnv) (toInstant : DateTime → Int) (cutoff : Int)
    (i : Nat) (cat : Option String) :
    getIncidentsFrom E toInstant cutoff i cat =
      (sectionScanFrom E i cat).filter (fun inc => !decide (toInstant inc.timestamp < cutoff)) := by
  exact scanFrom_eq_filter E _ (E.lines.length - i) i cat rfl

theorem isHeader_eq_false (s : String) (h : isHeader s = false) :
    ¬ s = hdrFire ∧ ¬ s = hdrEMS ∧ ¬ s = hdrTraffic := by
  simp only [isHeader, Bool.or_eq_false_iff, beq_eq_false_iff_ne, ne_eq] at h
  exact ⟨h.1.1, h.1.2, h.2⟩

/-- With no section-header line at or after the cursor, the scan never
changes the current category, so every emitted incident carries
`cat.getD catUNKNOWN`. -/
theorem scanFrom_cat_stable (E : ScanEnv) (keep : DateTime → Bool) :
    ∀ (k i : Nat) (cat : Option String), E.lines.length - i = k →
      (∀ j, i ≤ j → j < E.lines.length → isHeader (E.lines.getD j noLine) = false) →
      ∀ inc ∈ scanFrom E keep i cat, inc.category = cat.getD catUNKNOWN := by
  intro k
  induction k using Nat.strong_induction_on with
  | _ k ih =>
    intro i cat hk hnh
    by_cases h0 : i < E.lines.length
    case neg =>
      rw [scanFrom_halt _ _ _ _ (scanStep_out E keep i cat h0)]
      intro inc hinc
      cases hinc
    have hdr := isHeader_eq_false _ (hnh i (le_refl i) h0)
    rcases scanStep_cases_all E keep i cat with hs | ⟨hh, _⟩ | ⟨hh, _⟩ | ⟨hh, _⟩ | hs | hs | ⟨dt, hs⟩
    · rw [scanFrom_halt _ _ _ _ hs]
      intro inc hinc
      cases hinc
    · exact absurd hh hdr.1
    · exact absurd hh hdr.2.1
    · exact absurd hh hdr.2.2
    · rw [scanFrom_next _ _ _ _ _ _ _ hs]
      simp only [Option.toList, List.nil_append]
      exact ih (E.lines.length - (i+1)) (by omega) (i+1) cat rfl
        (fun j hj hj2 => hnh j (by omega) hj2)
    · rw [scanFrom_next _ _ _ _ _ _ _ hs]
      simp only [Option.toList, List.nil_append]
      exact ih (E.lines.length - (i+6)) (by omega) (i+6) cat rfl
        (fun j hj hj2 => hnh j (by omega) hj2)
    · rw [scanFrom_next _ _ _ _ _ _ _ hs]
      intro inc hinc
      rcases List.mem_cons.mp hinc with rfl | hinc
      · rfl
      · exact ih (E.lines.length - (i+6)) (by omega) (i+6) cat rfl
          (fun j hj hj2 => hnh j (by omega) hj2) inc hinc

/-- Every incident the scan emits carries one of the four category
strings, provided the starting category is `none` or one of the three
header categories. -/
theorem scanFrom_cat_mem (E : ScanEnv) (keep : DateTime → Bool) :
    ∀ (k i : Nat) (cat : Option String), E.lines.length - i = k →
      (cat = none ∨ cat = some catFIRE ∨ cat = some catEMS ∨ cat = some catTRAFFIC) →
      ∀ inc ∈ scanFrom E keep i cat,
        inc.category = catFIRE ∨ inc.category = catEMS
          ∨ inc.category = catTRAFFIC ∨ inc.category = catUNKNOWN := by
  intro k
  induction k using Nat.strong_induction_on with
  | _ k ih =>
    intro i cat hk hcat
    by_cases h0 : i < E.lines.length
    case neg =>
      rw [scanFrom_halt _ _ _ _ (scanStep_out E keep i cat h0)]
      intro inc hinc
      cases hinc
    rcases scanStep_cases_all E keep i cat with hs | ⟨_, hs⟩ | ⟨_, hs⟩ | ⟨_, hs⟩ | hs | hs | ⟨dt, hs⟩
    · rw [scanFrom_halt _ _ _ _ hs]
      intro inc hinc
      cases hinc
    · rw [scanFrom_next _ _ _ _ _ _ _ hs]
      simp only [Option.toList, List.nil_append]
      exact ih (E.lines.length - (i+1)) (by omega) (i+1) (some catFIRE) rfl (by simp)
    · rw [scanFrom_next _ _ _ _ _ _ _ hs]
      simp only [Option.toList, List.nil_append]
      exact ih (E.lines.length - (i+1)) (by omega) (i+1) (some catEMS) rfl (by simp)
    · rw [scanFrom_next _ _ _ _ _ _ _ hs]
      simp only [Option.toList, List.nil_append]
      exact ih (E.lines.length - (i+1)) (by omega) (i+1) (some catTRAFFIC) rfl (by simp)
    · rw [scanFrom_next _ _ _ _ _ _ _ hs]
      simp only [Option.toList, List.nil_append]
      exact ih (E.lines.length - (i+1)) (by omega) (i+1) cat rfl hcat
    · rw [scanFrom_next _ _ _ _ _ _ _ hs]
      simp only [Option.toList, List.nil_append]
      exact ih (E.lines.length - (i+6)) (by omega) (i+6) cat rfl hcat
    · rw [scanFrom_next _ _ _ _ _ _ _ hs]
      intro inc hinc
      rcases List.mem_cons.mp hinc with rfl | hinc
      · rcases hcat with rfl | rfl | rfl | rfl
        · exact Or.inr (Or.inr (Or.inr rfl))
        · exact Or.inl rfl
        · exact Or.inr (Or.inl rfl)
        · exact Or.inr (Or.inr (Or.inl rfl))
      · exact ih (E.lines.length - (i+6)) (by omega) (i+6) cat rfl hcat inc hinc

theorem scanFrom_hdr_fire (E : ScanEnv) (keep : DateTime → Bool) (i : Nat) (cat : Option String)
    (h0 : i < E.lines.length) (hh : E.lines.getD i noLine = hdrFire) :
    scanFrom E keep i cat = scanFrom E keep (i+1) (some catFIRE) := by
  rw [scanFrom_next _ _ _ _ _ _ _ (scanStep_hdr_fire E keep i cat h0 hh)]
  rfl

theorem scanFrom_hdr_ems (E : ScanEnv) (keep : DateTime → Bool) (i : Nat) (cat : Option String)
    (h0 : i < E.lines.length) (hh : E.lines.getD i noLine = hdrEMS) :
    scanFrom E keep i cat = scanFrom E keep (i+1) (some catEMS) := by
  rw [scanFrom_next _ _ _ _ _ _ _ (scanStep_hdr_ems E keep i cat h0 hh)]
  rfl

theorem scanFrom_hdr_traffic (E : ScanEnv) (keep : DateTime → Bool) (i : Nat)
    (cat : Option String)
    (h0 : i < E.lines.length) (hh : E.lines.getD i noLine = hdrTraffic) :
    scanFrom E keep i cat = scanFrom E keep (i+1) (some catTRAFFIC) := by
  rw [scanFrom_next _ _ _ _ _ _ _ (scanStep_hdr_traffic E keep i cat h0 hh)]
  rfl

/-- Tokens produced by the whitespace splitter are non-empty and contain
no whitespace characters. -/
theorem pySplitAux_props : ∀ (rest cur : List Char),
    (∀ c ∈ cur, isPySpace c = false) →
    ∀ t ∈ pySplitAux cur rest, t ≠ [] ∧ ∀ c ∈ t, isPySpace c = false := by
  intro rest
  induction rest with
  | nil =>
    intro cur hcur t ht
    unfold pySplitAux at ht
    by_cases hc : cur.isEmpty
    · rw [if_pos hc] at ht
      cases ht
    · rw [if_neg hc] at ht
      rcases List.mem_singleton.mp ht with rfl
      constructor
      · intro hrev
        have : cur = [] := by
          have := congrArg List.reverse hrev
          simpa using this
        rw [this] at hc
        exact hc rfl
      · intro c hcrev
        exact hcur c (List.mem_reverse.mp hcrev)
  | cons a rest ihr =>
    intro cur hcur t ht
    unfold pySplitAux at ht
    by_cases ha : isPySpace a
    · rw [if_pos ha] at ht
      by_cases hc : cur.isEmpty
      · rw [if_pos hc] at ht
        exact ihr [] (by intro c hc'; cases hc') t ht
      · rw [if_neg hc] at ht
        rcases List.mem_cons.mp ht with rfl | ht
        · constructor
          · intro hrev
            have : cur = [] := by
              have := congrArg List.reverse hrev
              simpa using this
            rw [this] at hc
            exact hc rfl
          · intro c hcrev
            exact hcur c (List.mem_reverse.mp hcrev)
        · exact ihr [] (by intro c hc'; cases hc') t ht
    · rw [if_neg ha] at ht
      refine ihr (a :: cur) ?_ t ht
      intro c hc'
      rcases List.mem_cons.mp hc' with rfl | hc'
      · cases hb : isPySpace c
        · rfl
        · exact absurd hb ha
      · exact hcur c hc'

theorem dropWhile_id_of_no_sat (p : Char → Bool) :
    ∀ (l : List Char), (∀ c ∈ l, p c = false) → l.dropWhile p = l := by
  intro l hl
  cases l with
  | nil => rfl
  | cons a l =>
    rw [List.dropWhile_cons, if_neg]
    rw [hl a (by simp)]
    simp

/-- Stripping is the identity on whitespace-free character lists. -/
theorem stripChars_id (l : List Char) (hl : ∀ c ∈ l, isPySpace c = false) :
    stripChars l = l := by
  unfold stripChars
  rw [dropWhile_id_of_no_sat _ l hl]
  rw [dropWhile_id_of_no_sat _ l.reverse (fun c hc => hl c (List.mem_reverse.mp hc))]
  exact List.reverse_reverse l

/-- Modelled from the spec (section 4.5): the unit one comments-page line
contributes — if the line contains the case-insensitive substring "scene"
and a `>` separator, the last whitespace-separated token before the first
`>`; nothing otherwise. -/
def specUnitOf (line : String) : Option String :=
  if hasSub (asciiLower line) sceneWord && line.data.contains '>' then
    ((pySplitTokens (line.data.takeWhile (fun c => c ≠ '>'))).getLast?).map
      (fun t => String.mk t)
  else none

/-- Deduplication keeping the first occurrence, threading the list of
already-seen values. -/
def dedupAux (seen : List String) : List String → List String
  | [] => seen
  | u :: rest => if u ∈ seen then dedupAux seen rest else dedupAux (seen ++ [u]) rest

/-- Deduplication keeping first occurrences in order. -/
def dedupFirst (l : List String) : List String := dedupAux [] l

theorem token_strip (t : List Char) (hne : t ≠ []) (hns : ∀ c ∈ t, isPySpace c = false) :
    pyStrip (String.mk t) = String.mk t ∧ String.mk t ≠ noLine := by
  constructor
  · show String.mk (stripChars (String.mk t).data) = String.mk t
    have hdata : (String.mk t).data = t := rfl
    rw [hdata, stripChars_id t hns]
  · intro hemp
    have := congrArg String.data hemp
    simp only at this
    exact hne this

theorem unitsStep_eq_spec (acc : List String) (l : String) (hl : pyStrip l = l) :
    unitsStep acc l =
      match specUnitOf l with
      | none => acc
      | some u => if u ∈ acc then acc else acc ++ [u] := by
  simp only [unitsStep, specUnitOf, hl]
  cases hsc : hasSub (asciiLower l) sceneWord with
  | false => simp
  | true =>
    cases hgt : l.data.contains '>' with
    | false => simp
    | true =>
      simp only [Bool.not_true, Bool.false_eq_true, if_false, Bool.and_self,
        eq_self_iff_true, if_true]
      cases hlast : (pySplitTokens (l.data.takeWhile (fun c => c ≠ '>'))).getLast? with
      | none => simp
      | some t =>
        have htmem : t ∈ pySplitTokens (l.data.takeWhile (fun c => c ≠ '>')) :=
          List.mem_of_getLast?_eq_some hlast
        have hprops := pySplitAux_props (l.data.takeWhile (fun c => c ≠ '>')) []
          (by intro c hc; cases hc) t htmem
        have hstr := token_strip t hprops.1 hprops.2
        simp only [Option.map_some, hstr.1]
        by_cases hmem : String.mk t ∈ acc
        · rw [if_neg (fun hcon => hcon.2 hmem)]
          show acc = if String.mk t ∈ acc then acc else acc ++ [String.mk t]
          rw [if_pos hmem]
        · rw [if_pos ⟨hstr.2, hmem⟩]
          show acc ++ [String.mk t] = if String.mk t ∈ acc then acc else acc ++ [String.mk t]
          rw [if_neg hmem]

theorem dedupAux_cons (seen : List String) (u : String) (rest : List String) :
    dedupAux seen (u :: rest) =
      if u ∈ seen then dedupAux seen rest else dedupAux (seen ++ [u]) rest := rfl

/-- The unit-extraction loop over trimmed lines equals first-seen
deduplication of the per-line spec extraction. -/
theorem foldl_unitsStep_eq (lines : List String) :
    ∀ acc, (∀ l ∈ lines, pyStrip l = l) →
      lines.foldl unitsStep acc = dedupAux acc (lines.filterMap specUnitOf) := by
  induction lines with
  | nil => intro acc _; rfl
  | cons l rest ihr =>
    intro acc h
    have hl : pyStrip l = l := h l (by simp)
    have hrest : ∀ x ∈ rest, pyStrip x = x := fun x hx => h x (by simp [hx])
    simp only [List.foldl_cons, List.filterMap_cons]
    rw [unitsStep_eq_spec acc l hl]
    cases hsp : specUnitOf l with
    | none => exact ihr acc hrest
    | some u =>
      show List.foldl unitsStep (if u ∈ acc then acc else acc ++ [u]) rest
        = dedupAux acc (u :: List.filterMap specUnitOf rest)
      rw [dedupAux_cons]
      by_cases hmem : u ∈ acc
      · rw [if_pos hmem, if_pos hmem]
        exact ihr acc hrest
      · rw [if_neg hmem, if_neg hmem]
        exact ihr (acc ++ [u]) hrest

/-- C5 demo sanity check on the spec example. -/
theorem extractUnits_demo :
    extractUnits ["ENG45> On Scene", "ENG45> On Scene", "TWR1> At Scene"] =
      ["ENG45", "TWR1"] := by decide

/-- Demo comments-link mapping: no incident has a comments link. -/
def demoLinks : String → String := fun _ => noLine

/-- Demo comments fetcher: every fetch fails. -/
def demoFetch : String → Option String := fun _ => none

/-- Demo localization: every wall-clock time sits at instant 0. -/
def zeroInstant : DateTime → Int := fun _ => 0

/-- Demo recency predicate keeping everything. -/
def alwaysTrue : DateTime → Bool := fun _ => true

/-- Demo snapshot-time string. -/
def demoNow : String := "2025-11-29T08:00:00-05:00"

/-- Demo comments-page URL. -/
def demoUrl : String := "http://example.invalid/livecadcomments"

/-- Demo page: the well-formed 6-line fire block of the specification's
end-to-end scenario. -/
def demoEnv : ScanEnv :=
  { lines := ["F25065066", "FIRE ALARM", "LANCASTER AVE & COUNTRY CLUB DR",
      "East Caln Township", "11-29-2025 00:31:04", "46"]
    links := demoLinks
    fetch := demoFetch }

/-- The parsed demo timestamp. -/
def demoDT : DateTime :=
  { year := 2025, month := 11, day := 29, hour := 0, minute := 31, second := 4 }

/-- Demo page with a block whose timestamp line fails the shape check. -/
def demoEnvBad : ScanEnv :=
  { lines := ["F1", "a", "b", "c", "bad", "d", "x"]
    links := demoLinks
    fetch := demoFetch }

/-- C1: for every line matching the incident-ID shape with at least 5
lines following, whose 5th following line has the strict timestamp shape
and parses to a valid date-time, the Section Scanner emits exactly one
incident whose id, type, location, municipality, raw_timestamp and
station equal the six block lines verbatim after trimming, and the
cursor advances by exactly 6; moreover the code's fused scan
(`getIncidentsFrom`) is exactly this Section Scanner followed by the
recency filter. -/
theorem scanner_emits_wellformed_block (E : ScanEnv) (i : Nat) (cat : Option String)
    (dt : DateTime)
    (hid : isIncidentId (E.lines.getD i noLine) = true)
    (hlen : i + 5 < E.lines.length)
    (hshape : tsShapeOk (pyStrip (E.lines.getD (i+4) noLine)) = true)
    (hparse : strptimeMDY (pyStrip (E.lines.getD (i+4) noLine)) = some dt) :
    sectionScanFrom E i cat
        = blockIncident E i cat dt :: sectionScanFrom E (i+6) cat
      ∧ (blockIncident E i cat dt).id = pyStrip (E.lines.getD i noLine)
      ∧ (blockIncident E i cat dt).type = pyStrip (E.lines.getD (i+1) noLine)
      ∧ (blockIncident E i cat dt).location = pyStrip (E.lines.getD (i+2) noLine)
      ∧ (blockIncident E i cat dt).municipality = pyStrip (E.lines.getD (i+3) noLine)
      ∧ (blockIncident E i cat dt).raw_timestamp = pyStrip (E.lines.getD (i+4) noLine)
      ∧ (blockIncident E i cat dt).station = pyStrip (E.lines.getD (i+5) noLine)
      ∧ ∀ (toInstant : DateTime → Int) (cutoff : Int),
          getIncidentsFrom E toInstant cutoff i cat =
            (sectionScanFrom E i cat).filter
              (fun inc => !decide (toInstant inc.timestamp < cutoff)) := by
  refine ⟨?_, rfl, rfl, rfl, rfl, rfl, rfl, ?_⟩
  · exact scanFrom_id_emit E (fun _ => true) i cat dt hid hlen hshape hparse rfl
  · intro toInstant cutoff
    exact getIncidentsFrom_eq_filter E toInstant cutoff i cat

theorem scanner_emits_wellformed_block_witness :
    isIncidentId (demoEnv.lines.getD 0 noLine) = true
  ∧ 0 + 5 < demoEnv.lines.length
  ∧ tsShapeOk (pyStrip (demoEnv.lines.getD (0+4) noLine)) = true
  ∧ strptimeMDY (pyStrip (demoEnv.lines.getD (0+4) noLine)) = some demoDT
  ∧ sectionScanFrom demoEnv 0 none
      = blockIncident demoEnv 0 none demoDT :: sectionScanFrom demoEnv (0+6) none
  ∧ getIncidentsFrom demoEnv zeroInstant 0 0 none =
      (sectionScanFrom demoEnv 0 none).filter
        (fun inc => !decide (zeroInstant inc.timestamp < 0)) := by
  have h := scanner_emits_wellformed_block demoEnv 0 none demoDT
    (by decide) (by decide) (by decide) (by decide)
  exact ⟨by decide, by decide, by decide, by decide, h.1,
    h.2.2.2.2.2.2.2 zeroInstant 0⟩

/-- C2: a candidate block starting at an ID-shaped line with at least 5
lines following, whose timestamp line fails the shape check or does not
parse to a valid date-time, emits zero incidents and the cursor still
advances by exactly 6 — the block's interior is never re-scanned. -/
theorem malformed_block_consumed (E : ScanEnv) (toInstant : DateTime → Int) (cutoff : Int)
    (i : Nat) (cat : Option String)
    (hid : isIncidentId (E.lines.getD i noLine) = true)
    (hlen : i + 5 < E.lines.length)
    (hbad : tsShapeOk (pyStrip (E.lines.getD (i+4) noLine)) = false
      ∨ strptimeMDY (pyStrip (E.lines.getD (i+4) noLine)) = none) :
    getIncidentsFrom E toInstant cutoff i cat = getIncidentsFrom E toInstant cutoff (i+6) cat :=
  scanFrom_id_invalid E _ i cat hid hlen hbad

theorem malformed_block_consumed_witness :
    isIncidentId (demoEnvBad.lines.getD 0 noLine) = true
  ∧ 0 + 5 < demoEnvBad.lines.length
  ∧ tsShapeOk (pyStrip (demoEnvBad.lines.getD (0+4) noLine)) = false
  ∧ getIncidentsFrom demoEnvBad zeroInstant 0 0 none
      = getIncidentsFrom demoEnvBad zeroInstant 0 (0+6) none :=
  ⟨by decide, by decide, by decide,
    malformed_block_consumed demoEnvBad zeroInstant 0 0 none (by decide) (by decide)
      (Or.inl (by decide))⟩

/-- Demo page: an EMS header followed by a well-formed block. -/
def demoEnvEMS : ScanEnv :=
  { lines := ["EMS Incidents", "E25000001", "MEDICAL EMERGENCY", "MAIN ST",
      "East Caln Township", "11-29-2025 00:31:04", "46"]
    links := demoLinks
    fetch := demoFetch }

/-- C3: a block after the literal "EMS Incidents" line with no later
section header is assigned category EMS (correspondingly FIRE and
TRAFFIC); with no section header at or after the cursor every emitted
incident is UNKNOWN; and every incident of a full scan carries one of
the four category strings — never null. -/
theorem category_assignment :
    (∀ (E : ScanEnv) (toInstant : DateTime → Int) (cutoff : Int) (i : Nat)
        (cat : Option String),
      E.lines.getD i noLine = hdrEMS →
      (∀ j, i < j → j < E.lines.length → isHeader (E.lines.getD j noLine) = false) →
      ∀ inc ∈ getIncidentsFrom E toInstant cutoff i cat, inc.category = catEMS)
  ∧ (∀ (E : ScanEnv) (toInstant : DateTime → Int) (cutoff : Int) (i : Nat)
        (cat : Option String),
      E.lines.getD i noLine = hdrFire →
      (∀ j, i < j → j < E.lines.length → isHeader (E.lines.getD j noLine) = false) →
      ∀ inc ∈ getIncidentsFrom E toInstant cutoff i cat, inc.category = catFIRE)
  ∧ (∀ (E : ScanEnv) (toInstant : DateTime → Int) (cutoff : Int) (i : Nat)
        (cat : Option String),
      E.lines.getD i noLine = hdrTraffic →
      (∀ j, i < j → j < E.lines.length → isHeader (E.lines.getD j noLine) = false) →
      ∀ inc ∈ getIncidentsFrom E toInstant cutoff i cat, inc.category = catTRAFFIC)
  ∧ (∀ (E : ScanEnv) (toInstant : DateTime → Int) (cutoff : Int) (i : Nat),
      (∀ j, i ≤ j → j < E.lines.length → isHeader (E.lines.getD j noLine) = false) →
      ∀ inc ∈ getIncidentsFrom E toInstant cutoff i none, inc.category = catUNKNOWN)
  ∧ (∀ (E : ScanEnv) (toInstant : DateTime → Int) (cutoff : Int),
      ∀ inc ∈ get_incidents toInstant cutoff (some E),
        inc.category = catFIRE ∨ inc.category = catEMS
          ∨ inc.category = catTRAFFIC ∨ inc.category = catUNKNOWN) := by
  refine ⟨?_, ?_, ?_, ?_, ?_⟩
  · intro E tI cut i cat hh hnh
    by_cases h0 : i < E.lines.length
    case neg =>
      exfalso
      rw [List.getD_eq_default _ _ (by omega)] at hh
      exact absurd hh (by decide)
    rw [getIncidentsFrom, scanFrom_hdr_ems E _ i cat h0 hh]
    exact scanFrom_cat_stable E _ (E.lines.length - (i+1)) (i+1) (some catEMS) rfl
      (fun j hj hj2 => hnh j (by omega) hj2)
  · intro E tI cut i cat hh hnh
    by_cases h0 : i < E.lines.length
    case neg =>
      exfalso
      rw [List.getD_eq_default _ _ (by omega)] at hh
      exact absurd hh (by decide)
    rw [getIncidentsFrom, scanFrom_hdr_fire E _ i cat h0 hh]
    exact scanFrom_cat_stable E _ (E.lines.length - (i+1)) (i+1) (some catFIRE) rfl
      (fun j hj hj2 => hnh j (by omega) hj2)
  · intro E tI cut i cat hh hnh
    by_cases h0 : i < E.lines.length
    case neg =>
      exfalso
      rw [List.getD_eq_default _ _ (by omega)] at hh
      exact absurd hh (by decide)
    rw [getIncidentsFrom, scanFrom_hdr_traffic E _ i cat h0 hh]
    exact scanFrom_cat_stable E _ (E.lines.length - (i+1)) (i+1) (some catTRAFFIC) rfl
      (fun j hj hj2 => hnh j (by omega) hj2)
  · intro E tI cut i hnh
    exact scanFrom_cat_stable E _ (E.lines.length - i) i none rfl hnh
  · intro E tI cut
    exact scanFrom_cat_mem E _ (E.lines.length - 0) 0 none rfl (Or.inl rfl)

theorem category_assignment_witness :
    demoEnvEMS.lines.getD 0 noLine = hdrEMS
  ∧ (∀ j, 0 < j → j < demoEnvEMS.lines.length →
      isHeader (demoEnvEMS.lines.getD j noLine) = false)
  ∧ (∀ inc ∈ getIncidentsFrom demoEnvEMS zeroInstant 0 0 none, inc.category = catEMS) := by
  have hnh : ∀ j, 0 < j → j < demoEnvEMS.lines.length →
      isHeader (demoEnvEMS.lines.getD j noLine) = false := by
    intro j h1 h2
    have h7 : j < 7 := h2
    interval_cases j <;> decide
  exact ⟨by decide, hnh,
    category_assignment.1 demoEnvEMS zeroInstant 0 0 none (by decide) hnh⟩

/-- C4: the recency boundary is inclusive — for a well-formed block, if
the parsed timestamp's instant (under the America/New_York localization
`toInstant`) equals the cutoff instant of `now - 8h` exactly, the
incident is retained; if it is strictly earlier (for instance one second
before the cutoff), it is excluded. -/
theorem recency_boundary (E : ScanEnv) (toInstant : DateTime → Int) (cutoff : Int)
    (i : Nat) (cat : Option String) (dt : DateTime)
    (hid : isIncidentId (E.lines.getD i noLine) = true)
    (hlen : i + 5 < E.lines.length)
    (hshape : tsShapeOk (pyStrip (E.lines.getD (i+4) noLine)) = true)
    (hparse : strptimeMDY (pyStrip (E.lines.getD (i+4) noLine)) = some dt) :
    (toInstant dt = cutoff →
      getIncidentsFrom E toInstant cutoff i cat
        = blockIncident E i cat dt :: getIncidentsFrom E toInstant cutoff (i+6) cat)
  ∧ (toInstant dt < cutoff →
      getIncidentsFrom E toInstant cutoff i cat
        = getIncidentsFrom E toInstant cutoff (i+6) cat) := by
  constructor
  · intro heq
    exact scanFrom_id_emit E _ i cat dt hid hlen hshape hparse (by simp [heq])
  · intro hlt
    exact scanFrom_id_dropped E _ i cat dt hid hlen hshape hparse (by simp [hlt])

theorem recency_boundary_witness :
    isIncidentId (demoEnv.lines.getD 0 noLine) = true
  ∧ 0 + 5 < demoEnv.lines.length
  ∧ tsShapeOk (pyStrip (demoEnv.lines.getD (0+4) noLine)) = true
  ∧ strptimeMDY (pyStrip (demoEnv.lines.getD (0+4) noLine)) = some demoDT
  ∧ zeroInstant demoDT = 0
  ∧ zeroInstant demoDT < 1
  ∧ getIncidentsFrom demoEnv zeroInstant 0 0 none
      = blockIncident demoEnv 0 none demoDT :: getIncidentsFrom demoEnv zeroInstant 0 (0+6) none
  ∧ getIncidentsFrom demoEnv zeroInstant 1 0 none
      = getIncidentsFrom demoEnv zeroInstant 1 (0+6) none := by
  have hat := recency_boundary demoEnv zeroInstant 0 0 none demoDT
    (by decide) (by decide) (by decide) (by decide)
  have hbefore := recency_boundary demoEnv zeroInstant 1 0 none demoDT
    (by decide) (by decide) (by decide) (by decide)
  exact ⟨by decide, by decide, by decide, by decide, by decide, by decide,
    hat.1 rfl, hbefore.2 (by decide)⟩

/-- C5: over the (already-trimmed) comments-page lines, the unit
extractor returns exactly the per-line units — the last
whitespace-separated token before the first `>` of each line containing
the case-insensitive substring "scene" and a `>` — deduplicated in
first-seen order; in particular the spec's example yields
`["ENG45", "TWR1"]`. -/
theorem unit_extraction_matches_spec (lines : List String)
    (htrim : ∀ l ∈ lines, pyStrip l = l) :
    extractUnits lines = dedupFirst (lines.filterMap specUnitOf)
  ∧ extractUnits ["ENG45> On Scene", "ENG45> On Scene", "TWR1> At Scene"]
      = ["ENG45", "TWR1"]
  ∧ ∀ (fetch : String → Option String) (url text : String), ¬ url = noLine →
      fetch url = some text →
      get_units_on_scene fetch url =
        (extractUnits ((pySplitlines text).filter (fun l => pyStrip l ≠ noLine)), [url]) := by
  refine ⟨?_, by decide, ?_⟩
  · exact foldl_unitsStep_eq lines [] htrim
  · intro fetch url text hu hf
    unfold get_units_on_scene
    rw [if_neg hu, hf]

theorem unit_extraction_matches_spec_witness :
    (∀ l ∈ (["ENG45> On Scene", "ENG45> On Scene", "TWR1> At Scene"] : List String),
      pyStrip l = l)
  ∧ extractUnits ["ENG45> On Scene", "ENG45> On Scene", "TWR1> At Scene"]
      = dedupFirst ((["ENG45> On Scene", "ENG45> On Scene", "TWR1> At Scene"] :
          List String).filterMap specUnitOf)
  ∧ dedupFirst ((["ENG45> On Scene", "ENG45> On Scene", "TWR1> At Scene"] :
        List String).filterMap specUnitOf) = ["ENG45", "TWR1"] := by
  have h := unit_extraction_matches_spec
    ["ENG45> On Scene", "ENG45> On Scene", "TWR1> At Scene"] (by decide)
  exact ⟨by decide, h.1, by decide⟩

theorem filter_incidents_sublist (filters : List String) (incs : List Incident) :
    (filter_incidents filters incs).Sublist incs := by
  unfold filter_incidents
  by_cases hf : filters.isEmpty
  · rw [if_pos hf]
  · rw [if_neg hf]
    exact List.filter_sublist _

/-- C6: counterexample — with the primary-page fetch failed (`page =
none`) and the MQTT connect successful, the cycle still publishes a
payload to the bus, refuting "that poll cycle publishes nothing". -/
theorem primary_failure_still_publishes :
    cyclePublish true demoNow zeroInstant 0 none [] ≠ none := by decide

/-- C6 (amended): if the primary-page fetch fails, `get_incidents`
returns the empty list and the cycle publishes a payload with zero
total_incidents, zero filtered_incidents and an empty incidents array
(rather than publishing nothing); the loop then sleeps for the normal
delay and retries. -/
theorem primary_failure_publishes_empty (nowStr : String) (toInstant : DateTime → Int)
    (cutoff : Int) (filters : List String) :
    get_incidents toInstant cutoff none = []
  ∧ cyclePublish true nowStr toInstant cutoff none filters =
      some { last_update := nowStr
             total_incidents := 0
             filtered_incidents := 0
             incidents := [] } := by
  refine ⟨rfl, ?_⟩
  have hfe : filter_incidents filters [] = [] := by
    unfold filter_incidents
    by_cases hf : filters.isEmpty
    · rw [if_pos hf]
    · rw [if_neg hf]
      rfl
  show some (mkPayload nowStr filters (get_incidents toInstant cutoff none)) = _
  rw [show get_incidents toInstant cutoff none = [] from rfl]
  unfold mkPayload
  rw [hfe]
  rfl

/-- C7: `get_units_on_scene` on an empty comments URL returns the empty
list with no fetch performed; a failed comments fetch also yields the
empty list (no exception — the function is total); and under a failed
comments fetch a well-formed, recent block is still emitted with empty
`units_on_scene`. -/
theorem comments_failure_degrades (E : ScanEnv) (toInstant : DateTime → Int) (cutoff : Int)
    (i : Nat) (cat : Option String) (dt : DateTime)
    (hid : isIncidentId (E.lines.getD i noLine) = true)
    (hlen : i + 5 < E.lines.length)
    (hshape : tsShapeOk (pyStrip (E.lines.getD (i+4) noLine)) = true)
    (hparse : strptimeMDY (pyStrip (E.lines.getD (i+4) noLine)) = some dt)
    (hkeep : ¬ toInstant dt < cutoff)
    (hfail : E.fetch (E.links (pyStrip (E.lines.getD i noLine))) = none) :
    (∀ fetch : String → Option String, get_units_on_scene fetch noLine = ([], []))
  ∧ (∀ (fetch : String → Option String) (url : String), ¬ url = noLine →
      fetch url = none → get_units_on_scene fetch url = ([], [url]))
  ∧ getIncidentsFrom E toInstant cutoff i cat
      = blockIncident E i cat dt :: getIncidentsFrom E toInstant cutoff (i+6) cat
  ∧ (blockIncident E i cat dt).units_on_scene = [] := by
  refine ⟨?_, ?_, ?_, ?_⟩
  · intro fetch
    unfold get_units_on_scene
    rw [if_pos rfl]
  · intro fetch url hu hf
    unfold get_units_on_scene
    rw [if_neg hu, hf]
  · exact scanFrom_id_emit E _ i cat dt hid hlen hshape hparse (by simp [hkeep])
  · show (get_units_on_scene E.fetch (E.links (pyStrip (E.lines.getD i noLine)))).1 = []
    unfold get_units_on_scene
    by_cases hu : E.links (pyStrip (E.lines.getD i noLine)) = noLine
    · rw [if_pos hu]
    · rw [if_neg hu, hfail]

theorem comments_failure_degrades_witness :
    (¬ zeroInstant demoDT < 0)
  ∧ demoEnv.fetch (demoEnv.links (pyStrip (demoEnv.lines.getD 0 noLine))) = none
  ∧ get_units_on_scene demoFetch noLine = ([], [])
  ∧ get_units_on_scene demoFetch demoUrl = ([], [demoUrl])
  ∧ getIncidentsFrom demoEnv zeroInstant 0 0 none
      = blockIncident demoEnv 0 none demoDT :: getIncidentsFrom demoEnv zeroInstant 0 (0+6) none
  ∧ (blockIncident demoEnv 0 none demoDT).units_on_scene = [] := by
  have h := comments_failure_degrades demoEnv zeroInstant 0 0 none demoDT
    (by decide) (by decide) (by decide) (by decide) (by decide) rfl
  exact ⟨by decide, rfl, h.1 demoFetch, h.2.1 demoFetch demoUrl (by decide) rfl,
    h.2.2.1, h.2.2.2⟩

/-- Demo incident located in East Caln Township. -/
def demoIncidentEC : Incident :=
  { timestamp := demoDT
    id := "F25065066"
    location := "LANCASTER AVE & COUNTRY CLUB DR"
    municipality := "East Caln Township"
    type := "FIRE ALARM"
    category := "FIRE"
    station := "46"
    description := "demo"
    raw_timestamp := "11-29-2025 00:31:04"
    comments_url := ""
    units_on_scene := [] }

/-- Demo incident located in West Chester. -/
def demoIncidentWC : Incident :=
  { timestamp := demoDT
    id := "E25000002"
    location := "GAY ST"
    municipality := "West Chester"
    type := "MEDICAL EMERGENCY"
    category := "EMS"
    station := "51"
    description := "demo"
    raw_timestamp := "11-29-2025 00:31:04"
    comments_url := ""
    units_on_scene := [] }

/-- The municipality filter of the specification's example. -/
def ecFilter : List String := ["East Caln"]

/-- C8: with an empty filter set `filter_incidents` is the identity;
with a non-empty set it keeps exactly the incidents whose municipality
contains some configured substring (case-sensitive); on the spec's
example only the East Caln incident survives. -/
theorem municipality_filter_spec (incs : List Incident) (filters : List String)
    (hne : ¬ filters = []) :
    filter_incidents [] incs = incs
  ∧ filter_incidents filters incs =
      incs.filter (fun inc => filters.any (fun key => hasSub inc.municipality key))
  ∧ filter_incidents ecFilter [demoIncidentEC, demoIncidentWC] = [demoIncidentEC]
  ∧ filter_incidents [] [demoIncidentEC, demoIncidentWC]
      = [demoIncidentEC, demoIncidentWC] := by
  refine ⟨rfl, ?_, by decide, rfl⟩
  unfold filter_incidents
  rw [if_neg]
  intro hemp
  cases filters with
  | nil => exact hne rfl
  | cons a l => cases hemp

theorem municipality_filter_spec_witness :
    ¬ ecFilter = []
  ∧ filter_incidents ecFilter [demoIncidentEC, demoIncidentWC] =
      ([demoIncidentEC, demoIncidentWC] : List Incident).filter
        (fun inc => ecFilter.any (fun key => hasSub inc.municipality key))
  ∧ filter_incidents ecFilter [demoIncidentEC, demoIncidentWC] = [demoIncidentEC] := by
  have h := municipality_filter_spec [demoIncidentEC, demoIncidentWC] ecFilter (by decide)
  exact ⟨by decide, h.2.1, h.2.2.1⟩

/-- Demo page: a single non-ID noise line. -/
def demoEnvNoise : ScanEnv :=
  { lines := ["noise"]
    links := demoLinks
    fetch := demoFetch }

/-- Demo page: an ID-shaped line with fewer than 6 lines in total. -/
def demoEnvShort : ScanEnv :=
  { lines := ["F1"]
    links := demoLinks
    fetch := demoFetch }

/-- C9: the scan terminates — every continuing loop iteration strictly
advances the cursor; and at an ID-shaped line with fewer than 6 lines
remaining the scan stops immediately, the tail yielding no incidents. -/
theorem scan_terminates (E : ScanEnv) (keep : DateTime → Bool) (i : Nat)
    (cat : Option String) (i' : Nat) (cat' : Option String) (e : Option Incident)
    (hstep : scanStep E keep i cat = ScanStep.next i' cat' e) :
    i < i'
  ∧ ∀ (F : ScanEnv) (toInstant : DateTime → Int) (cutoff : Int) (j : Nat)
      (c : Option String),
      isIncidentId (F.lines.getD j noLine) = true → j < F.lines.length →
      F.lines.length ≤ j + 5 →
      getIncidentsFrom F toInstant cutoff j c = [] := by
  constructor
  · exact (scanStep_next_bounds E keep i cat i' cat' e hstep).1
  · intro F tI cut j c hid hj hshort
    exact scanFrom_id_short F _ j c hid hj hshort

theorem scan_terminates_witness :
    scanStep demoEnvNoise alwaysTrue 0 none = ScanStep.next 1 none none
  ∧ (0 : Nat) < 1
  ∧ isIncidentId (demoEnvShort.lines.getD 0 noLine) = true
  ∧ 0 < demoEnvShort.lines.length
  ∧ demoEnvShort.lines.length ≤ 0 + 5
  ∧ getIncidentsFrom demoEnvShort zeroInstant 0 0 none = [] := by
  have h := scan_terminates demoEnvNoise alwaysTrue 0 none 1 none none (by decide)
  exact ⟨by decide, h.1, by decide, by decide, by decide,
    h.2 demoEnvShort zeroInstant 0 0 none (by decide) (by decide) (by decide)⟩

/-- C10: in every published payload, `filtered_incidents` equals the
length of the incidents array, is at most `total_incidents`, and the
incidents array is an order-preserving subsequence (with unchanged
elements) of the pre-filter incident list. -/
theorem payload_invariants (mqttOk : Bool) (nowStr : String) (toInstant : DateTime → Int)
    (cutoff : Int) (page : Option ScanEnv) (filters : List String) (p : Payload)
    (hpub : cyclePublish mqttOk nowStr toInstant cutoff page filters = some p) :
    p.filtered_incidents = p.incidents.length
  ∧ p.filtered_incidents ≤ p.total_incidents
  ∧ p.incidents.Sublist (get_incidents toInstant cutoff page) := by
  have hmq : mqttOk = true := by
    cases mqttOk
    · exact absurd hpub (by simp [cyclePublish])
    · rfl
  subst hmq
  have hp : p = mkPayload nowStr filters (get_incidents toInstant cutoff page) := by
    unfold cyclePublish at hpub
    rw [if_pos rfl] at hpub
    injection hpub with hp
    exact hp.symm
  subst hp
  refine ⟨rfl, ?_, ?_⟩
  · exact (filter_incidents_sublist filters (get_incidents toInstant cutoff page)).length_le
  · exact filter_incidents_sublist filters (get_incidents toInstant cutoff page)

theorem payload_invariants_witness :
    cyclePublish true demoNow zeroInstant 0 none [] = some (mkPayload demoNow [] [])
  ∧ (mkPayload demoNow [] []).filtered_incidents = (mkPayload demoNow [] []).incidents.length
  ∧ (mkPayload demoNow [] []).filtered_incidents ≤ (mkPayload demoNow [] []).total_incidents
  ∧ (mkPayload demoNow [] []).incidents.Sublist (get_incidents zeroInstant 0 none) := by
  have h := payload_invariants true demoNow zeroInstant 0 none [] (mkPayload demoNow [] [])
    (by decide)
  exact ⟨by decide, h.1, h.2.1, h.2.2⟩
